import Mathlib

/-!
Verification development for the CurvePrimitive module of the imodeljs
geometry core (src/unnamed/part_001, the file CurvePrimitive.ts).

Embedding conventions:
* TypeScript numbers are embedded as exact rationals.  Floating-point
  rounding, NaN and infinity are outside the model; all arithmetic facts
  below are exact-arithmetic statements about the algorithms.
* The module under analysis imports several leaf helpers (Geometry.ts,
  CurveLocationDetail.ts, Point3dVector3d.ts, Quadrature.ts, Newton.ts)
  whose sources are not part of the analysed tree.  Each such helper is
  reproduced here with a doc comment starting with: Modelled from the spec.
  Square roots (point distance, vector magnitude) and the Gauss-Legendre
  tables are irrational, so they enter the model as explicit function
  parameters, collected in the structure ModelParams; theorems quantify
  over them and concrete instances are supplied for witnesses.
* The abstract class CurvePrimitive is embedded as a structure holding the
  abstract members the generic algorithms consume: the fraction-to-point
  map, the fraction-to-point-and-derivative map, the optional
  fraction-to-distance scale, and the stroke emission, the latter as a
  list of announcement events (the spec, section 4.2, brackets the
  announcements of one primitive with startCurvePrimitive and
  endCurvePrimitive; the single-curve emissions modelled here carry that
  bracketing implicitly).
* Stateful stroke handlers become explicit state records folded over the
  emission list; each handler method is one state-transition function
  translated line by line from the source.
-/

/-- Point with rational coordinates, embedding Point3d. -/
structure Point3d where
  x : ℚ
  y : ℚ
  z : ℚ
deriving DecidableEq

/-- Vector with rational coordinates, embedding Vector3d. -/
structure Vector3d where
  x : ℚ
  y : ℚ
  z : ℚ
deriving DecidableEq

/-- Ray: origin point plus (not necessarily unit) direction vector. -/
structure Ray3d where
  origin : Point3d
  direction : Vector3d
deriving DecidableEq

/-- Embedding of Math.abs on the rational scalars, written as a plain
conditional so that it evaluates inside the kernel. -/
def qAbs (q : ℚ) : ℚ := if q < 0 then -q else q

/-- The embedded absolute value agrees with the Mathlib absolute value. -/
theorem qAbs_eq_abs (q : ℚ) : qAbs q = |q| := by
  unfold qAbs
  rcases lt_or_le q 0 with h | h
  · rw [if_pos h, abs_of_neg h]
  · rw [if_neg (not_lt.mpr h), abs_of_nonneg h]

namespace Geometry

/-- Modelled from the spec: Geometry.interpolate (Geometry.ts is not under
src/).  Linear interpolation from a to b at the given fraction; the source
splits at fraction one half for floating stability, which is the same
function in exact arithmetic. -/
def interpolate (a fraction b : ℚ) : ℚ := a + fraction * (b - a)

/-- Modelled from the spec: Geometry.clampToStartEnd (Geometry.ts is not
under src/).  Clamp x into the interval from a to b. -/
def clampToStartEnd (x a b : ℚ) : ℚ := max a (min b x)

/-- Modelled from the spec: Geometry.conditionalDivideFraction (Geometry.ts
is not under src/).  Division guarded against a near-zero denominator: the
quotient is returned only when it cannot exceed a large bound, so a
zero-length (zero denominator) case reports no result, as section 4.4 of
the spec requires for the zero-length-curve error path. -/
def conditionalDivideFraction (numerator denominator : ℚ) : Option ℚ :=
  if qAbs numerator < qAbs denominator * 10000000000 then
    some (numerator / denominator)
  else none

/-- Modelled from the spec: Geometry.inverseInterpolate (Geometry.ts is not
under src/).  Fraction at which the linear function through (x0, f0) and
(x1, f1) crosses zero, when the guarded division allows it. -/
def inverseInterpolate (x0 f0 x1 f1 : ℚ) : Option ℚ :=
  match conditionalDivideFraction (0 - f0) (f1 - f0) with
  | some g => some (interpolate x0 g x1)
  | none => none

end Geometry

namespace Point3d

/-- Squared Euclidean distance between two points, embedding
Point3d.distanceSquared. -/
def distanceSquared (p q : Point3d) : ℚ :=
  (q.x - p.x) * (q.x - p.x) + (q.y - p.y) * (q.y - p.y) +
    (q.z - p.z) * (q.z - p.z)

/-- Componentwise linear interpolation between two points, embedding
Point3d.interpolate. -/
def interpolate (p0 : Point3d) (fraction : ℚ) (p1 : Point3d) : Point3d :=
  ⟨Geometry.interpolate p0.x fraction p1.x,
   Geometry.interpolate p0.y fraction p1.y,
   Geometry.interpolate p0.z fraction p1.z⟩

/-- Modelled from the spec: Point3d.fractionOfProjectionToLine
(Point3dVector3d.ts is not under src/).  Fraction of the projection of the
point onto the line from pointA to pointB: the ratio of dot products, with
the guarded division falling back to the supplied default. -/
def fractionOfProjectionToLine (space pointA pointB : Point3d)
    (defaultFraction : ℚ) : ℚ :=
  let ux := pointB.x - pointA.x
  let uy := pointB.y - pointA.y
  let uz := pointB.z - pointA.z
  let uv := ux * (space.x - pointA.x) + uy * (space.y - pointA.y) +
    uz * (space.z - pointA.z)
  let uu := ux * ux + uy * uy + uz * uz
  match Geometry.conditionalDivideFraction uv uu with
  | some f => f
  | none => defaultFraction

end Point3d

namespace Ray3d

/-- Dot product of the ray direction with the vector from the ray origin to
the space point, embedding Ray3d.dotProductToPoint. -/
def dotProductToPoint (ray : Ray3d) (space : Point3d) : ℚ :=
  ray.direction.x * (space.x - ray.origin.x) +
  ray.direction.y * (space.y - ray.origin.y) +
  ray.direction.z * (space.z - ray.origin.z)

end Ray3d

/-- Status tag of a search result, embedding CurveSearchStatus. -/
inductive CurveSearchStatus where
  | success
  | stoppedAtBoundary
  | error
deriving DecidableEq

/-- Query result record, embedding CurveLocationDetail.  The non-owning
back reference to the curve is not carried: no claim inspects it, and the
single-curve emissions modelled here make it redundant. -/
structure CurveLocationDetail where
  fraction : ℚ
  point : Point3d
  a : ℚ
  curveSearchStatus : Option CurveSearchStatus
deriving DecidableEq

/-- One announcement of the stroke-emission protocol (spec section 4.2):
a uniform-step sampling request, an exact chord, or one exact
point-tangent sample. -/
inductive StrokePart where
  | intervalStrokes (numStrokes : ℕ) (fraction0 fraction1 : ℚ)
  | segmentInterval (point0 point1 : Point3d) (numStrokes : ℕ)
      (fraction0 fraction1 : ℚ)
  | pointTangent (point : Point3d) (fraction : ℚ) (tangent : Vector3d)

/-- Embedding of one concrete CurvePrimitive instance: the abstract
members the generic algorithms consume.  getFractionToDistanceScale is the
constant answer of that method; strokableParts is the announcement
sequence the instance issues from emitStrokableParts. -/
structure CurvePrimitive where
  fractionToPoint : ℚ → Point3d
  fractionToPointAndDerivative : ℚ → Ray3d
  getFractionToDistanceScale : Option ℚ
  strokableParts : List StrokePart

/-- Modelled from the spec: the irrational leaves of the numeric stack.
dist embeds Point3d.distance, mag embeds Vector3d.magnitude (both square
roots, Point3dVector3d.ts is not under src/), gaussRule embeds the
Quadrature tables (Quadrature.ts is not under src/): for a Gauss order and
a mapped interval it yields the weight-abscissa pairs.  Theorems quantify
over these parameters; witnesses instantiate them with exact rational
versions. -/
structure ModelParams where
  dist : Point3d → Point3d → ℚ
  mag : Vector3d → ℚ
  gaussRule : ℕ → ℚ → ℚ → List (ℚ × ℚ)
  solver : ℚ → Option ℚ

/-- Gauss-point-count normalization performed by the CurveLengthContext
constructor (part_001 lines 543 to 555): a requested count below 1 or
above 5 silently becomes 5, and the switch maps 1 to 4 to those orders,
defaulting to 5. -/
def curveLengthContextGaussOrder (numGaussPoints : ℤ) : ℕ :=
  let n := if numGaussPoints > 5 ∨ numGaussPoints < 1 then 5 else numGaussPoints
  if n = 1 then 1
  else if n = 2 then 2
  else if n = 3 then 3
  else if n = 4 then 4
  else 5

/-- State of the length integrator, embedding CurveLengthContext: the
accumulated sum, the sorted target fraction interval and the selected
Gauss order (the source stores the order as the selected mapper
function). -/
structure CurveLengthContext where
  summedLength : ℚ
  fraction0 : ℚ
  fraction1 : ℚ
  gaussOrder : ℕ

namespace CurveLengthContext

/-- Constructor of CurveLengthContext: sorts the target interval and
selects the Gauss order. -/
def mk' (fraction0 fraction1 : ℚ) (numGaussPoints : ℤ) : CurveLengthContext :=
  { summedLength := 0
    fraction0 := if fraction0 < fraction1 then fraction0 else fraction1
    fraction1 := if fraction0 < fraction1 then fraction1 else fraction0
    gaussOrder := curveLengthContextGaussOrder numGaussPoints }

/-- Magnitude of the curve derivative at a fraction, embedding
CurveLengthContext.tangentMagnitude. -/
def tangentMagnitude (P : ModelParams) (c : CurvePrimitive) (fraction : ℚ) : ℚ :=
  P.mag (c.fractionToPointAndDerivative fraction).direction

/-- Embedding of CurveLengthContext.announceIntervalForUniformStepStrokes:
clip the announced interval to the target interval, then accumulate the
Gauss quadrature of the tangent magnitude over each uniform step. -/
def announceIntervalForUniformStepStrokes (P : ModelParams) (c : CurvePrimitive)
    (ctx : CurveLengthContext) (numStrokes : ℕ)
    (fraction0 fraction1 : ℚ) : CurveLengthContext :=
  let f0 := if fraction0 < ctx.fraction0 then ctx.fraction0 else fraction0
  let f1 := if fraction1 > ctx.fraction1 then ctx.fraction1 else fraction1
  if f1 > f0 then
    let n := if numStrokes < 1 then 1 else numStrokes
    let df := (1 : ℚ) / (n : ℚ)
    (List.range n).foldl (fun s i =>
      let fractionA := Geometry.interpolate f0 ((i : ℚ) * df) f1
      let fractionB :=
        if i + 1 = n then f1
        else Geometry.interpolate f0 (((i : ℚ) + 1) * df) f1
      (P.gaussRule ctx.gaussOrder fractionA fractionB).foldl
        (fun s2 wx =>
          { s2 with summedLength :=
              s2.summedLength + wx.1 * tangentMagnitude P c wx.2 }) s) ctx
  else ctx

/-- Embedding of CurveLengthContext.announceSegmentInterval: an exact
chord contributes its full point distance when inside the target
interval, else the proportional overlap. -/
def announceSegmentInterval (P : ModelParams) (ctx : CurveLengthContext)
    (point0 point1 : Point3d) (fraction0 fraction1 : ℚ) : CurveLengthContext :=
  let segmentLength := P.dist point0 point1
  if ctx.fraction0 ≤ fraction0 ∧ fraction1 ≤ ctx.fraction1 then
    { ctx with summedLength := ctx.summedLength + segmentLength }
  else
    let g0 := if fraction0 < ctx.fraction0 then ctx.fraction0 else fraction0
    let g1 := if fraction1 > ctx.fraction1 then ctx.fraction1 else fraction1
    if g1 > g0 then
      { ctx with summedLength :=
          ctx.summedLength + segmentLength * (g1 - g0) / (fraction1 - fraction0) }
    else ctx

/-- Dispatch of one stroke announcement to the length integrator; the
announcePointTangent method of the source is a no-op. -/
def handlePart (P : ModelParams) (c : CurvePrimitive) (ctx : CurveLengthContext) :
    StrokePart → CurveLengthContext
  | StrokePart.intervalStrokes n f0 f1 =>
      announceIntervalForUniformStepStrokes P c ctx n f0 f1
  | StrokePart.segmentInterval p0 p1 _ f0 f1 =>
      announceSegmentInterval P ctx p0 p1 f0 f1
  | StrokePart.pointTangent _ _ _ => ctx

end CurveLengthContext

namespace CurvePrimitive

/-- Emission of the strokable parts of the curve into a length context. -/
def emitToLengthContext (P : ModelParams) (c : CurvePrimitive)
    (ctx : CurveLengthContext) : CurveLengthContext :=
  c.strokableParts.foldl (CurveLengthContext.handlePart P c) ctx

/-- Embedding of CurvePrimitive.curveLength: run the default length
context (target interval 0 to 1, five Gauss points) over the emission and
take its sum. -/
def curveLength (P : ModelParams) (c : CurvePrimitive) : ℚ :=
  (emitToLengthContext P c (CurveLengthContext.mk' 0 1 5)).summedLength

/-- Embedding of CurvePrimitive.curveLengthBetweenFractions: zero for a
degenerate interval, the proportional fast path when the curve has a
fraction-to-distance scale, else the absolute value of the integrated
sum. -/
def curveLengthBetweenFractions (P : ModelParams) (c : CurvePrimitive)
    (fraction0 fraction1 : ℚ) : ℚ :=
  if fraction0 = fraction1 then 0
  else
    match c.getFractionToDistanceScale with
    | some _ => qAbs ((fraction1 - fraction0) * curveLength P c)
    | none =>
        qAbs (emitToLengthContext P c
          (CurveLengthContext.mk' fraction0 fraction1 5)).summedLength

/-- Context built by
CurvePrimitive.curveLengthWithFixedIntervalCountQuadrature after sorting
its fractions. -/
def quadratureContext (fraction0 fraction1 : ℚ) (numGauss : ℤ) :
    CurveLengthContext :=
  let f0 := if fraction0 > fraction1 then fraction1 else fraction0
  let f1 := if fraction0 > fraction1 then fraction0 else fraction1
  CurveLengthContext.mk' f0 f1 numGauss

/-- Embedding of
CurvePrimitive.curveLengthWithFixedIntervalCountQuadrature: sort the
fractions, build the context with the requested Gauss count, announce one
uniform-step interval and take the absolute sum. -/
def curveLengthWithFixedIntervalCountQuadrature (P : ModelParams)
    (c : CurvePrimitive) (fraction0 fraction1 : ℚ) (numInterval : ℕ)
    (numGauss : ℤ) : ℚ :=
  let f0 := if fraction0 > fraction1 then fraction1 else fraction0
  let f1 := if fraction0 > fraction1 then fraction0 else fraction1
  let ctx := quadratureContext fraction0 fraction1 numGauss
  qAbs (CurveLengthContext.announceIntervalForUniformStepStrokes P c ctx
    numInterval f0 f1).summedLength

end CurvePrimitive

namespace CurveLocationDetail

/-- Modelled from the spec: CurveLocationDetail.createCurveFractionPoint
(CurveLocationDetail.ts is not under src/).  Record a fraction and point
with zero auxiliary distance and no status. -/
def createCurveFractionPoint (fraction : ℚ) (point : Point3d) :
    CurveLocationDetail :=
  { fraction := fraction, point := point, a := 0, curveSearchStatus := none }

/-- Modelled from the spec: CurveLocationDetail.createCurveEvaluatedFraction
(CurveLocationDetail.ts is not under src/).  Record a fraction together
with the curve point evaluated there. -/
def createCurveEvaluatedFraction (c : CurvePrimitive)
    (fraction : ℚ) : CurveLocationDetail :=
  { fraction := fraction, point := c.fractionToPoint fraction, a := 0,
    curveSearchStatus := none }

/-- Modelled from the spec:
CurveLocationDetail.createCurveFractionPointDistanceCurveSearchStatus
(CurveLocationDetail.ts is not under src/). -/
def createCurveFractionPointDistanceCurveSearchStatus (fraction : ℚ)
    (point : Point3d) (a : ℚ) (status : CurveSearchStatus) :
    CurveLocationDetail :=
  { fraction := fraction, point := point, a := a,
    curveSearchStatus := some status }

/-- Modelled from the spec:
CurveLocationDetail.createConditionalMoveSignedDistance
(CurveLocationDetail.ts is not under src/).  Spec section 4.4, steps 1, 2
and 4: when extension is disallowed and the requested move cannot be
completed inside the fraction range (the end fraction exits the 0 to 1
interval, or less curve length is available up to it than the requested
distance), clamp to the boundary and report the achieved signed distance
with status stoppedAtBoundary; otherwise report the end fraction, its
curve point and the requested signed distance with status success. -/
def createConditionalMoveSignedDistance (P : ModelParams)
    (allowExtension : Bool) (c : CurvePrimitive)
    (startFraction endFraction requestedSignedDistance : ℚ) :
    CurveLocationDetail :=
  let boundary := Geometry.clampToStartEnd endFraction 0 1
  let achieved := CurvePrimitive.curveLengthBetweenFractions P c startFraction boundary
  if allowExtension = false ∧
      (endFraction < 0 ∨ 1 < endFraction ∨
        achieved < qAbs requestedSignedDistance) then
    { fraction := boundary, point := c.fractionToPoint boundary,
      a := (if requestedSignedDistance < 0 then -1 else 1) * achieved,
      curveSearchStatus := some CurveSearchStatus.stoppedAtBoundary }
  else
    { fraction := endFraction, point := c.fractionToPoint endFraction,
      a := requestedSignedDistance,
      curveSearchStatus := some CurveSearchStatus.success }

end CurveLocationDetail

/-- Loop state of the generic signed-distance iteration (part_001 lines
225 to 232): the previous end fraction, the next end fraction, the
distance accumulated up to the previous end fraction, and the count of
consecutive in-tolerance iterations. -/
structure MoveSignedDistanceLoopState where
  fractionA : ℚ
  fractionB : ℚ
  distanceA : ℚ
  numConverged : ℕ
deriving DecidableEq

/-- Carry of the bounded for-loop of the generic signed-distance
iteration: the loop state, whether a break has fired, and how many
iterations have executed (a broken carry passes through the remaining
iterations unchanged, as a break does). -/
structure MoveSignedDistanceLoopCarry where
  state : MoveSignedDistanceLoopState
  broken : Bool
  iterations : ℕ
deriving DecidableEq

namespace CurvePrimitive

/-- Remaining distance error of one iteration of
moveSignedDistanceFromFractionGeneric (part_001 lines 235 to 238): the
requested unsigned distance minus the signed distance travelled up to the
candidate end fraction, the last step measured by true integration with
travel direction read off the fraction order. -/
def moveSignedDistanceStepError (P : ModelParams) (c : CurvePrimitive)
    (absDistance directionFactor : ℚ) (s : MoveSignedDistanceLoopState) : ℚ :=
  let distanceAB := curveLengthBetweenFractions P c s.fractionA s.fractionB
  let directionAB :=
    if s.fractionB > s.fractionA then directionFactor else -directionFactor
  absDistance - (s.distanceA + directionAB * distanceAB)

/-- Consecutive-convergence count after one iteration (part_001 lines 239
to 245): incremented when the error is within tolerance, else reset to
zero. -/
def moveSignedDistanceStepNumConverged (P : ModelParams) (c : CurvePrimitive)
    (absDistance directionFactor tol : ℚ) (s : MoveSignedDistanceLoopState) :
    ℕ :=
  if qAbs (moveSignedDistanceStepError P c absDistance directionFactor s) <
      tol then s.numConverged + 1
  else 0

/-- Newton update of the end fraction (part_001 lines 246 to 249): step by
the signed remaining error over the local tangent magnitude.  Caveat: this
is a rational division, which totalises the float division by sending a
zero denominator to zero; on a source trace with a zero tangent magnitude
the float quotient is infinite or NaN, no loop exit comparison then
succeeds and the source falls through to the error return, so no theorem
below reads a success result off a zero-magnitude trace. -/
def moveSignedDistanceStepNextFraction (P : ModelParams) (c : CurvePrimitive)
    (absDistance directionFactor : ℚ) (s : MoveSignedDistanceLoopState) : ℚ :=
  s.fractionB + directionFactor *
    moveSignedDistanceStepError P c absDistance directionFactor s /
    P.mag (c.fractionToPointAndDerivative s.fractionB).direction

/-- Embedding of one iteration of moveSignedDistanceFromFractionGeneric
(part_001 lines 234 to 255): measure the true length from the previous to
the candidate end fraction, update the signed distance travelled and its
error, count consecutive in-tolerance errors and break after two, else
take the Newton step and break when the fraction estimate repeats
exactly. -/
def moveSignedDistanceLoopStep (P : ModelParams) (c : CurvePrimitive)
    (absDistance directionFactor tol : ℚ)
    (carry : MoveSignedDistanceLoopCarry) : MoveSignedDistanceLoopCarry :=
  if carry.broken then carry
  else
    let s := carry.state
    let numConverged1 :=
      moveSignedDistanceStepNumConverged P c absDistance directionFactor tol s
    if qAbs (moveSignedDistanceStepError P c absDistance directionFactor s) <
          tol ∧ numConverged1 > 1 then
      { state := { s with numConverged := numConverged1 }, broken := true,
        iterations := carry.iterations + 1 }
    else
      let fractionB1 :=
        moveSignedDistanceStepNextFraction P c absDistance directionFactor s
      if s.fractionB = fractionB1 then
        let stable : MoveSignedDistanceLoopState :=
          { fractionA := s.fractionB, fractionB := fractionB1, distanceA := s.distanceA, numConverged := 100 }
        { state := stable, broken := true, iterations := carry.iterations + 1 }
      else
        let advanced : MoveSignedDistanceLoopState :=
          { fractionA := s.fractionB, fractionB := fractionB1, distanceA := absDistance - moveSignedDistanceStepError P c absDistance directionFactor s, numConverged := numConverged1 }
        { state := advanced, broken := false, iterations := carry.iterations + 1 }

/-- Travel-direction limit fraction of the generic signed-distance search
(part_001 line 217). -/
def moveSignedDistanceLimitFraction (signedDistance : ℚ) : ℚ :=
  if signedDistance > 0 then 1 else 0

/-- Unsigned curve length from the start fraction to the travel-direction
limit (part_001 line 220). -/
def moveSignedDistanceAvailableLength (P : ModelParams) (c : CurvePrimitive)
    (startFraction signedDistance : ℚ) : ℚ :=
  curveLengthBetweenFractions P c startFraction
    (moveSignedDistanceLimitFraction signedDistance)

/-- Loop carry reached by the generic signed-distance search after its
seeding (part_001 lines 223 to 255), starting from the
linear-interpolation seed and running the ten-iteration bounded loop.
Caveat: the seed step absDistance / availableLength is a rational
division; when the available length is zero the source's float quotient
is NaN (zero requested distance) or infinite, the poisoned iterates
defeat every loop exit comparison and the source returns the error
detail, while the rational quotient is zero.  No theorem below
concludes a success result on a zero-available-length trace: the error
conclusions agree with the source there, and the success conclusions
are established only away from that trace or on the proportional fast
path, which performs no such division. -/
def moveSignedDistanceLoopResult (P : ModelParams) (c : CurvePrimitive)
    (startFraction signedDistance : ℚ) : MoveSignedDistanceLoopCarry :=
  let limitFraction := moveSignedDistanceLimitFraction signedDistance
  let absDistance := qAbs signedDistance
  let directionFactor : ℚ := if signedDistance < 0 then -1 else 1
  let availableLength :=
    moveSignedDistanceAvailableLength P c startFraction signedDistance
  let fractionStep := absDistance / availableLength
  let fractionB := Geometry.interpolate startFraction fractionStep limitFraction
  let tol := (1 / 1000000000000 : ℚ) * availableLength
  let seed : MoveSignedDistanceLoopState :=
    { fractionA := startFraction, fractionB := fractionB, distanceA := 0, numConverged := 0 }
  (List.range 10).foldl
    (fun carry _ => moveSignedDistanceLoopStep P c absDistance directionFactor
      tol carry)
    { state := seed, broken := false, iterations := 0 }

/-- Embedding of CurvePrimitive.moveSignedDistanceFromFractionGeneric
(part_001 lines 216 to 263).  The second component counts the Newton
iterations which executed, so the immediate boundary return carries
zero. -/
def moveSignedDistanceFromFractionGeneric (P : ModelParams)
    (c : CurvePrimitive) (startFraction signedDistance : ℚ)
    (allowExtension : Bool) : CurveLocationDetail × ℕ :=
  let limitFraction := moveSignedDistanceLimitFraction signedDistance
  let absDistance := qAbs signedDistance
  let availableLength :=
    moveSignedDistanceAvailableLength P c startFraction signedDistance
  if availableLength < absDistance ∧ allowExtension = false then
    (CurveLocationDetail.createConditionalMoveSignedDistance P allowExtension c
      startFraction limitFraction signedDistance, 0)
  else
    let r := moveSignedDistanceLoopResult P c startFraction signedDistance
    if r.state.numConverged > 1 then
      (CurveLocationDetail.createConditionalMoveSignedDistance P false c
        startFraction r.state.fractionB signedDistance, r.iterations)
    else
      ({ fraction := startFraction, point := c.fractionToPoint startFraction,
         a := 0, curveSearchStatus := some CurveSearchStatus.error },
        r.iterations)

/-- Embedding of CurvePrimitive.moveSignedDistanceFromFraction (part_001
lines 178 to 198): the proportional fast path when the curve has a
fraction-to-distance scale, with the guarded division catching the
zero-length error case, else the generic search. -/
def moveSignedDistanceFromFraction (P : ModelParams) (c : CurvePrimitive)
    (startFraction signedDistance : ℚ) (allowExtension : Bool) :
    CurveLocationDetail :=
  match c.getFractionToDistanceScale with
  | some _ =>
      let totalLength := curveLength P c
      match Geometry.conditionalDivideFraction signedDistance totalLength with
      | none =>
          CurveLocationDetail.createCurveFractionPointDistanceCurveSearchStatus
            startFraction (c.fractionToPoint startFraction) 0
            CurveSearchStatus.error
      | some signedFractionMove =>
          CurveLocationDetail.createConditionalMoveSignedDistance P
            allowExtension c startFraction (startFraction + signedFractionMove)
            signedDistance
  | none =>
      (moveSignedDistanceFromFractionGeneric P c startFraction signedDistance
        allowExtension).1

end CurvePrimitive

/-- State of the closest-point searcher, embedding the fields of
ClosestPointStrokeHandler (part_001 lines 611 to 635).  The space point
and the extend flag are stored by the constructor; curveSet embeds
whether the current-curve reference is set (startCurvePrimitive with a
curve sets it; the constructor starts without one).  The parent-curve
proxy bracketing is not modelled: no claim involves proxy emissions, and
no modelled emission issues the parent announcements. -/
structure ClosestPointStrokeHandler where
  closestPoint : Option CurveLocationDetail
  spacePoint : Point3d
  extend : Bool
  fractionA : ℚ
  functionA : ℚ
  functionB : ℚ
  fractionB : ℚ
  numThisCurve : ℕ
  curveSet : Bool

namespace ClosestPointStrokeHandler

/-- Constructor of ClosestPointStrokeHandler. -/
def create (spacePoint : Point3d) (extend : Bool) : ClosestPointStrokeHandler :=
  { closestPoint := none, spacePoint := spacePoint, extend := extend,
    fractionA := 0, functionA := 0, functionB := 0, fractionB := 0,
    numThisCurve := 0, curveSet := false }

/-- Embedding of ClosestPointStrokeHandler.startCurvePrimitive: reset the
per-curve sample bookkeeping and record whether a curve is current. -/
def startCurvePrimitive (h : ClosestPointStrokeHandler) (hasCurve : Bool) :
    ClosestPointStrokeHandler :=
  { h with fractionA := 0, numThisCurve := 0, functionA := 0, curveSet := hasCurve }

/-- Embedding of ClosestPointStrokeHandler.announceCandidate (part_001
lines 668 to 676): keep the stored candidate when the new distance is
strictly greater, else store the new candidate with its distance. -/
def announceCandidate (P : ModelParams) (h : ClosestPointStrokeHandler)
    (fraction : ℚ) (point : Point3d) : ClosestPointStrokeHandler :=
  let distance := P.dist h.spacePoint point
  let stored : CurveLocationDetail :=
    { CurveLocationDetail.createCurveFractionPoint fraction point with a := distance }
  match h.closestPoint with
  | some best =>
      if distance > best.a then h
      else { h with closestPoint := some stored }
  | none => { h with closestPoint := some stored }

/-- Embedding of ClosestPointStrokeHandler.announceSolutionFraction: when
a curve is current, announce its evaluated point as a candidate. -/
def announceSolutionFraction (P : ModelParams) (c : CurvePrimitive)
    (h : ClosestPointStrokeHandler) (fraction : ℚ) :
    ClosestPointStrokeHandler :=
  if h.curveSet then announceCandidate P h fraction (c.fractionToPoint fraction)
  else h

/-- Embedding of ClosestPointStrokeHandler.searchInterval (part_001 lines
698 to 710): on a sign change or an exact zero of the bracketing function
between the two saved samples, announce the zero samples and refine the
interpolated seed with the root finder.  The guard on the interpolated
seed follows the source truthiness test, which also rejects an exact zero
seed. -/
def searchInterval (P : ModelParams) (c : CurvePrimitive)
    (h : ClosestPointStrokeHandler) : ClosestPointStrokeHandler :=
  if h.functionA * h.functionB > 0 then h
  else
    let h1 := if h.functionA = 0 then announceSolutionFraction P c h h.fractionA
      else h
    let h2 := if h1.functionB = 0 then
        announceSolutionFraction P c h1 h1.fractionB
      else h1
    if h2.functionA * h2.functionB < 0 then
      match Geometry.inverseInterpolate h2.fractionA h2.functionA h2.fractionB
          h2.functionB with
      | some fr =>
          if fr = 0 then h2
          else
            match P.solver fr with
            | some root => announceSolutionFraction P c h2 root
            | none => h2
      | none => h2
    else h2

/-- Embedding of ClosestPointStrokeHandler.evaluateB. -/
def evaluateB (h : ClosestPointStrokeHandler) (fractionB : ℚ) (dataB : Ray3d) :
    ClosestPointStrokeHandler :=
  { h with functionB := dataB.dotProductToPoint h.spacePoint, fractionB := fractionB }

/-- Embedding of ClosestPointStrokeHandler.announceRay (part_001 lines 730
to 736): save the sample as the B evaluation, search the bracketed
interval from the second sample of a curve onward, and shift the B sample
into the A slot. -/
def announceRay (P : ModelParams) (c : CurvePrimitive)
    (h : ClosestPointStrokeHandler) (fraction : ℚ) (data : Ray3d) :
    ClosestPointStrokeHandler :=
  let h1 := evaluateB h fraction data
  let h2 := if h1.numThisCurve > 0 then searchInterval P c h1 else h1
  { h2 with numThisCurve := h1.numThisCurve + 1, functionA := h2.functionB, fractionA := h2.fractionB }

/-- Embedding of ClosestPointStrokeHandler.announcePointTangent: wrap the
point and tangent as a ray and announce it. -/
def announcePointTangent (P : ModelParams) (c : CurvePrimitive)
    (h : ClosestPointStrokeHandler) (point : Point3d) (fraction : ℚ)
    (tangent : Vector3d) : ClosestPointStrokeHandler :=
  announceRay P c h fraction ⟨point, tangent⟩

/-- Embedding of
ClosestPointStrokeHandler.announceIntervalForUniformStepStrokes (part_001
lines 653 to 666): restart the per-curve bookkeeping, then announce the
position-and-derivative samples at the uniform fraction steps. -/
def announceIntervalForUniformStepStrokes (P : ModelParams)
    (c : CurvePrimitive) (h : ClosestPointStrokeHandler) (numStrokes : ℕ)
    (fraction0 fraction1 : ℚ) : ClosestPointStrokeHandler :=
  let h0 := startCurvePrimitive h true
  let n := if numStrokes < 1 then 1 else numStrokes
  let df := (1 : ℚ) / (n : ℚ)
  (List.range (n + 1)).foldl (fun s i =>
    let fraction := Geometry.interpolate fraction0 ((i : ℚ) * df) fraction1
    announceRay P c s fraction (c.fractionToPointAndDerivative fraction)) h0

/-- Clamping policy of ClosestPointStrokeHandler.announceSegmentInterval
(part_001 lines 684 to 693): clamp the projection fraction fully into the
unit interval when extension is off, else clamp from below unless the
chord starts at curve fraction zero and from above unless it ends at
curve fraction one. -/
def segmentLocalFraction (extend : Bool) (raw fraction0 fraction1 : ℚ) : ℚ :=
  if extend = false then Geometry.clampToStartEnd raw 0 1
  else
    let l1 := if fraction0 ≠ 0 then max raw 0 else raw
    if fraction1 ≠ 1 then min l1 1 else l1

/-- Embedding of ClosestPointStrokeHandler.announceSegmentInterval
(part_001 lines 677 to 697), continued: apply the clamping policy to the
projection fraction and announce the interpolated chord point as a
candidate. -/
def announceSegmentInterval (P : ModelParams)
    (h : ClosestPointStrokeHandler) (point0 point1 : Point3d)
    (fraction0 fraction1 : ℚ) : ClosestPointStrokeHandler :=
  let raw := h.spacePoint.fractionOfProjectionToLine point0 point1 0
  let localFraction := segmentLocalFraction h.extend raw fraction0 fraction1
  let workPoint := point0.interpolate localFraction point1
  let globalFraction := Geometry.interpolate fraction0 localFraction fraction1
  announceCandidate P h globalFraction workPoint

/-- Dispatch of one stroke announcement to the closest-point searcher. -/
def handlePart (P : ModelParams) (c : CurvePrimitive)
    (h : ClosestPointStrokeHandler) : StrokePart → ClosestPointStrokeHandler
  | StrokePart.intervalStrokes n f0 f1 =>
      announceIntervalForUniformStepStrokes P c h n f0 f1
  | StrokePart.segmentInterval p0 p1 _ f0 f1 =>
      announceSegmentInterval P h p0 p1 f0 f1
  | StrokePart.pointTangent p f t => announcePointTangent P c h p f t

/-- Embedding of ClosestPointStrokeHandler.claimResult (part_001 lines 637
to 645): with no stored candidate the answer is undefined; otherwise one
final root-finder refinement seeded at the stored fraction may improve
the candidate. -/
def claimResult (P : ModelParams) (c : CurvePrimitive)
    (h : ClosestPointStrokeHandler) : Option CurveLocationDetail :=
  match h.closestPoint with
  | none => none
  | some best =>
      match P.solver best.fraction with
      | some root =>
          (announceSolutionFraction P c { h with curveSet := true }
            root).closestPoint
      | none => some best

end ClosestPointStrokeHandler

namespace CurvePrimitive

/-- Embedding of CurvePrimitive.closestPoint (part_001 lines 294 to 298):
fold the stroke emission through a fresh closest-point handler and claim
its result. -/
def closestPoint (P : ModelParams) (c : CurvePrimitive) (spacePoint : Point3d)
    (extend : Bool) : Option CurveLocationDetail :=
  let h0 := (ClosestPointStrokeHandler.create spacePoint extend).startCurvePrimitive
    true
  let h1 := c.strokableParts.foldl (ClosestPointStrokeHandler.handlePart P c) h0
  ClosestPointStrokeHandler.claimResult P c h1

end CurvePrimitive

/-- Evaluator of signed plane altitude and its directional derivative,
embedding PlaneAltitudeEvaluator. -/
structure PlaneAltitudeEvaluator where
  altitude : Point3d → ℚ
  velocity : Vector3d → ℚ

/-- Modelled from the spec: Order2Bezier.solveCoffs (BezierPolynomials.ts
is not under src/).  Guarded solve of the root of the linear Bezier with
the two given coefficients. -/
def Order2Bezier.solveCoffs (a0 a1 : ℚ) : Option ℚ :=
  Geometry.conditionalDivideFraction (0 - a0) (a1 - a0)

/-- State of the plane-intersection searcher, embedding the fields of
AppendPlaneIntersectionStrokeHandler (part_001 lines 383 to 413).  The
plane is stored by the constructor; intersections is the caller-owned
accumulator.  The parent-curve proxy bracketing is not modelled, as for
the closest-point searcher. -/
structure AppendPlaneIntersectionStrokeHandler where
  plane : PlaneAltitudeEvaluator
  intersections : List CurveLocationDetail
  fractionA : ℚ
  functionA : ℚ
  functionB : ℚ
  fractionB : ℚ
  derivativeB : ℚ
  numThisCurve : ℕ
  curveSet : Bool

namespace AppendPlaneIntersectionStrokeHandler

/-- Constructor of AppendPlaneIntersectionStrokeHandler. -/
def create (plane : PlaneAltitudeEvaluator)
    (intersections : List CurveLocationDetail) :
    AppendPlaneIntersectionStrokeHandler :=
  { plane := plane, intersections := intersections, fractionA := 0,
    functionA := 0, functionB := 0, fractionB := 0, derivativeB := 0,
    numThisCurve := 0, curveSet := false }

/-- Embedding of startCurvePrimitive for the plane searcher. -/
def startCurvePrimitive (h : AppendPlaneIntersectionStrokeHandler)
    (hasCurve : Bool) : AppendPlaneIntersectionStrokeHandler :=
  { h with fractionA := 0, numThisCurve := 0, functionA := 0, curveSet := hasCurve }

/-- Embedding of
AppendPlaneIntersectionStrokeHandler.announceSolutionFraction (part_001
lines 459 to 465): when a curve is current, push the evaluated curve
point at the fraction onto the accumulator. -/
def announceSolutionFraction (c : CurvePrimitive)
    (h : AppendPlaneIntersectionStrokeHandler) (fraction : ℚ) :
    AppendPlaneIntersectionStrokeHandler :=
  if h.curveSet then
    { h with intersections := h.intersections ++
        [CurveLocationDetail.createCurveFractionPoint fraction
          (c.fractionToPointAndDerivative fraction).origin] }
  else h

/-- Embedding of AppendPlaneIntersectionStrokeHandler.searchInterval
(part_001 lines 478 to 490). -/
def searchInterval (P : ModelParams) (c : CurvePrimitive)
    (h : AppendPlaneIntersectionStrokeHandler) :
    AppendPlaneIntersectionStrokeHandler :=
  if h.functionA * h.functionB > 0 then h
  else
    let h1 := if h.functionA = 0 then announceSolutionFraction c h h.fractionA
      else h
    let h2 := if h1.functionB = 0 then announceSolutionFraction c h1 h1.fractionB
      else h1
    if h2.functionA * h2.functionB < 0 then
      match Geometry.inverseInterpolate h2.fractionA h2.functionA h2.fractionB
          h2.functionB with
      | some fr =>
          if fr = 0 then h2
          else
            match P.solver fr with
            | some root => announceSolutionFraction c h2 root
            | none => h2
      | none => h2
    else h2

/-- Embedding of AppendPlaneIntersectionStrokeHandler.evaluateB (part_001
lines 491 to 496). -/
def evaluateB (h : AppendPlaneIntersectionStrokeHandler) (xyz : Point3d)
    (fraction : ℚ) (tangent : Vector3d) :
    AppendPlaneIntersectionStrokeHandler :=
  { h with functionB := h.plane.altitude xyz, derivativeB := h.plane.velocity tangent, fractionB := fraction }

/-- Embedding of
AppendPlaneIntersectionStrokeHandler.announcePointTangent (part_001 lines
507 to 513). -/
def announcePointTangent (P : ModelParams) (c : CurvePrimitive)
    (h : AppendPlaneIntersectionStrokeHandler) (xyz : Point3d) (fraction : ℚ)
    (tangent : Vector3d) : AppendPlaneIntersectionStrokeHandler :=
  let h1 := evaluateB h xyz fraction tangent
  let h2 := if h1.numThisCurve > 0 then searchInterval P c h1 else h1
  { h2 with numThisCurve := h1.numThisCurve + 1, functionA := h2.functionB, fractionA := h2.fractionB }

/-- Embedding of
AppendPlaneIntersectionStrokeHandler.announceIntervalForUniformStepStrokes
(part_001 lines 422 to 435). -/
def announceIntervalForUniformStepStrokes (P : ModelParams)
    (c : CurvePrimitive) (h : AppendPlaneIntersectionStrokeHandler)
    (numStrokes : ℕ) (fraction0 fraction1 : ℚ) :
    AppendPlaneIntersectionStrokeHandler :=
  let h0 := startCurvePrimitive h true
  let n := if numStrokes < 1 then 1 else numStrokes
  let df := (1 : ℚ) / (n : ℚ)
  (List.range (n + 1)).foldl (fun s i =>
    let fraction := Geometry.interpolate fraction0 ((i : ℚ) * df) fraction1
    let ray := c.fractionToPointAndDerivative fraction
    announcePointTangent P c s ray.origin fraction ray.direction) h0

/-- Embedding of
AppendPlaneIntersectionStrokeHandler.announceSegmentInterval (part_001
lines 436 to 458): skip when both altitudes have the same strict sign,
else solve the chord crossing exactly and refine it with the root finder
against the true curve, pushing the refined point on convergence. -/
def announceSegmentInterval (P : ModelParams) (c : CurvePrimitive)
    (h : AppendPlaneIntersectionStrokeHandler) (point0 point1 : Point3d)
    (fraction0 fraction1 : ℚ) : AppendPlaneIntersectionStrokeHandler :=
  let h0 := h.plane.altitude point0
  let h1 := h.plane.altitude point1
  if h0 * h1 > 0 then h
  else
    match Order2Bezier.solveCoffs h0 h1 with
    | some fraction01 =>
        let fraction := Geometry.interpolate fraction0 fraction01 fraction1
        match P.solver fraction with
        | some root => announceSolutionFraction c h root
        | none => h
    | none => h

/-- Dispatch of one stroke announcement to the plane searcher. -/
def handlePart (P : ModelParams) (c : CurvePrimitive)
    (h : AppendPlaneIntersectionStrokeHandler) :
    StrokePart → AppendPlaneIntersectionStrokeHandler
  | StrokePart.intervalStrokes n f0 f1 =>
      announceIntervalForUniformStepStrokes P c h n f0 f1
  | StrokePart.segmentInterval p0 p1 _ f0 f1 =>
      announceSegmentInterval P c h p0 p1 f0 f1
  | StrokePart.pointTangent p f t => announcePointTangent P c h p f t

end AppendPlaneIntersectionStrokeHandler

namespace CurvePrimitive

/-- Embedding of CurvePrimitive.appendPlaneIntersectionPoints (part_001
lines 344 to 349): fold the stroke emission through a fresh
plane-intersection handler over the caller-owned accumulator; the first
component is the accumulator after the call and the second is the
returned count, the length difference. -/
def appendPlaneIntersectionPoints (P : ModelParams) (c : CurvePrimitive)
    (plane : PlaneAltitudeEvaluator) (result : List CurveLocationDetail) :
    List CurveLocationDetail × ℕ :=
  let h0 := (AppendPlaneIntersectionStrokeHandler.create plane
    result).startCurvePrimitive true
  let n0 := result.length
  let h1 := c.strokableParts.foldl
    (AppendPlaneIntersectionStrokeHandler.handlePart P c) h0
  (h1.intersections, h1.intersections.length - n0)

end CurvePrimitive

/-- Integer square root by bounded search, written as a fold so that it
evaluates inside the kernel. -/
def natSqrtBounded (n : ℕ) : ℕ :=
  (List.range (n + 1)).foldl (fun acc k => if k * k ≤ n then k else acc) 0

/-- Rational square root, exact on perfect squares: the concrete inputs of
all witnesses below have perfect-square squared distances, where this
agrees with the Euclidean square root the source computes. -/
def ratSqrt (q : ℚ) : ℚ :=
  (natSqrtBounded q.num.toNat : ℚ) / (natSqrtBounded q.den : ℚ)

/-- Concrete distance function for witnesses: the Euclidean distance,
computed exactly through ratSqrt. -/
def ratDist (p q : Point3d) : ℚ := ratSqrt (p.distanceSquared q)

/-- Concrete magnitude function for witnesses: the Euclidean norm,
computed exactly through ratSqrt. -/
def ratMag (v : Vector3d) : ℚ := ratSqrt (v.x * v.x + v.y * v.y + v.z * v.z)

/-- Concrete quadrature rule for witnesses: the one-point Gauss rule under
the standard affine change of interval (abscissa at the midpoint, weight
the interval width), which is exact.  The witnesses below integrate only
over exact chords, so the rule is never consulted there; theorems
quantify over every rule. -/
def gaussRuleMidpoint (_order : ℕ) (a b : ℚ) : List (ℚ × ℚ) :=
  [(b - a, (a + b) / 2)]

/-- Concrete model parameters for witnesses; the root finder reports no
convergence, which no witness below relies on. -/
def ratParams : ModelParams :=
  { dist := ratDist, mag := ratMag, gaussRule := gaussRuleMidpoint,
    solver := fun _ => none }

/-- Unit-length straight segment from the origin to (1,0,0), emitted as
one exact chord, with no fraction-to-distance scale so that the generic
algorithms run on it. -/
def cNoScale : CurvePrimitive :=
  { fractionToPoint := fun f => ⟨f, 0, 0⟩,
    fractionToPointAndDerivative := fun f => ⟨⟨f, 0, 0⟩, ⟨1, 0, 0⟩⟩,
    getFractionToDistanceScale := none,
    strokableParts := [StrokePart.segmentInterval ⟨0, 0, 0⟩ ⟨1, 0, 0⟩ 1 0 1] }

/-- Straight segment of length two from the origin to (2,0,0), emitted as
one exact chord, carrying its fraction-to-distance scale (the source
documents the scale as the curve length). -/
def seg2Curve : CurvePrimitive :=
  { fractionToPoint := fun f => ⟨2 * f, 0, 0⟩,
    fractionToPointAndDerivative := fun f => ⟨⟨2 * f, 0, 0⟩, ⟨2, 0, 0⟩⟩,
    getFractionToDistanceScale := some 2,
    strokableParts := [StrokePart.segmentInterval ⟨0, 0, 0⟩ ⟨2, 0, 0⟩ 1 0 1] }

/-- Curve whose stroke emission announces exactly its two endpoint
point-tangent samples, the degenerate emission of the spec scenario for
closestPoint. -/
def degenerateTwoPointCurve : CurvePrimitive :=
  { fractionToPoint := fun f => ⟨f, 0, 0⟩,
    fractionToPointAndDerivative := fun f => ⟨⟨f, 0, 0⟩, ⟨1, 0, 0⟩⟩,
    getFractionToDistanceScale := none,
    strokableParts := [StrokePart.pointTangent ⟨0, 0, 0⟩ 0 ⟨1, 0, 0⟩,
      StrokePart.pointTangent ⟨1, 0, 0⟩ 1 ⟨1, 0, 0⟩] }

/-- The length-context constructor sorts its fractions, so it does not
depend on their order. -/
theorem CurveLengthContext.mk_comm (f0 f1 : ℚ) (n : ℤ) :
    CurveLengthContext.mk' f0 f1 n = CurveLengthContext.mk' f1 f0 n := by
  unfold CurveLengthContext.mk'
  rcases lt_trichotomy f0 f1 with h | h | h
  · simp [h, not_lt.mpr h.le]
  · rw [h]
  · simp [h, not_lt.mpr h.le]

/-- Symmetry of curveLengthBetweenFractions in its two fractions, on both
the proportional and the integration path. -/
theorem curveLengthBetweenFractions_comm (P : ModelParams)
    (c : CurvePrimitive) (f0 f1 : ℚ) :
    CurvePrimitive.curveLengthBetweenFractions P c f0 f1 =
      CurvePrimitive.curveLengthBetweenFractions P c f1 f0 := by
  unfold CurvePrimitive.curveLengthBetweenFractions
  by_cases h : f0 = f1
  · simp [h]
  · have h2 : ¬f1 = f0 := fun e => h e.symm
    rw [if_neg h, if_neg h2]
    cases hs : c.getFractionToDistanceScale with
    | some s =>
        simp only [hs]
        rw [qAbs_eq_abs, qAbs_eq_abs,
          show (f1 - f0) * CurvePrimitive.curveLength P c =
            -((f0 - f1) * CurvePrimitive.curveLength P c) by ring, abs_neg]
    | none =>
        simp only [hs]
        rw [CurveLengthContext.mk_comm]

/-- Nonnegativity of curveLengthBetweenFractions on every path. -/
theorem curveLengthBetweenFractions_nonneg (P : ModelParams)
    (c : CurvePrimitive) (f0 f1 : ℚ) :
    0 ≤ CurvePrimitive.curveLengthBetweenFractions P c f0 f1 := by
  unfold CurvePrimitive.curveLengthBetweenFractions
  by_cases h : f0 = f1
  · simp [h]
  · rw [if_neg h]
    cases hs : c.getFractionToDistanceScale with
    | some s => simp only [hs]; rw [qAbs_eq_abs]; exact abs_nonneg _
    | none => simp only [hs]; rw [qAbs_eq_abs]; exact abs_nonneg _

/-- C7: for every curve and all fractions f0, f1, the partial length
query is symmetric in its fractions and nonnegative, in the proportional
fast path as well as in the stroke-integration path, whose context sorts
the interval endpoints and takes the absolute value of the accumulated
sum. -/
theorem curveLengthBetweenFractions_symm_and_nonneg (P : ModelParams)
    (c : CurvePrimitive) (f0 f1 : ℚ) :
    CurvePrimitive.curveLengthBetweenFractions P c f0 f1 =
      CurvePrimitive.curveLengthBetweenFractions P c f1 f0 ∧
    0 ≤ CurvePrimitive.curveLengthBetweenFractions P c f0 f1 :=
  ⟨curveLengthBetweenFractions_comm P c f0 f1,
   curveLengthBetweenFractions_nonneg P c f0 f1⟩

/-- C10: the length integrator uses only Gauss orders one through five:
the context constructor substitutes order five for every requested count
below one or above five and keeps an in-range requested count exactly,
and the fixed-interval-count quadrature entry point builds its context
with the same normalization. -/
theorem curveLengthContext_gauss_order_normalization (f0 f1 : ℚ) (n : ℤ) :
    1 ≤ (CurveLengthContext.mk' f0 f1 n).gaussOrder ∧
    (CurveLengthContext.mk' f0 f1 n).gaussOrder ≤ 5 ∧
    ((n < 1 ∨ 5 < n) → (CurveLengthContext.mk' f0 f1 n).gaussOrder = 5) ∧
    (1 ≤ n → n ≤ 5 → ((CurveLengthContext.mk' f0 f1 n).gaussOrder : ℤ) = n) ∧
    (CurvePrimitive.quadratureContext f0 f1 n).gaussOrder =
      curveLengthContextGaussOrder n := by
  have hg : (CurveLengthContext.mk' f0 f1 n).gaussOrder =
      curveLengthContextGaussOrder n := rfl
  have hq2 : (CurvePrimitive.quadratureContext f0 f1 n).gaussOrder =
      curveLengthContextGaussOrder n := by
    unfold CurvePrimitive.quadratureContext
    split <;> rfl
  refine ⟨?_, ?_, ?_, ?_, hq2⟩
  · rw [hg]; simp only [curveLengthContextGaussOrder]
    split_ifs <;> omega
  · rw [hg]; simp only [curveLengthContextGaussOrder]
    split_ifs <;> omega
  · intro hrange
    rw [hg]; simp only [curveLengthContextGaussOrder]
    have hout : (n > 5 ∨ n < 1) := by omega
    rw [if_pos hout]
    split_ifs <;> omega
  · intro hlo hhi
    rw [hg]; simp only [curveLengthContextGaussOrder]
    have hin : ¬(n > 5 ∨ n < 1) := by omega
    rw [if_neg hin]
    split_ifs <;> push_cast <;> omega

/-- Witness for C10 at concrete counts: a requested count of seven is
replaced by five, a requested count of three is kept. -/
theorem curveLengthContext_gauss_order_normalization_witness :
    (CurveLengthContext.mk' 0 1 7).gaussOrder = 5 ∧
    ((CurveLengthContext.mk' 0 1 3).gaussOrder : ℤ) = 3 :=
  ⟨(curveLengthContext_gauss_order_normalization 0 1 7).2.2.1
      (Or.inr (by norm_num)),
   (curveLengthContext_gauss_order_normalization 0 1 3).2.2.2.1
      (by norm_num) (by norm_num)⟩


/-- Bounded integer square root of one. -/
theorem natSqrtBounded_one : natSqrtBounded 1 = 1 := rfl

/-- Bounded integer square root of four. -/
theorem natSqrtBounded_four : natSqrtBounded 4 = 2 := rfl

/-- The rational square root of one. -/
theorem ratSqrt_one : ratSqrt 1 = 1 := by
  norm_num [ratSqrt, natSqrtBounded_one]

/-- The rational square root of four. -/
theorem ratSqrt_four : ratSqrt 4 = 2 := by
  have h4 : (4 : ℤ).toNat = 4 := rfl
  norm_num [ratSqrt, h4, natSqrtBounded_one, natSqrtBounded_four]

/-- Concrete distance from the origin to (1,0,0). -/
theorem ratDist_unit_x : ratDist ⟨0, 0, 0⟩ ⟨1, 0, 0⟩ = 1 := by
  norm_num [ratDist, Point3d.distanceSquared, ratSqrt_one]

/-- Concrete distance from the origin to (0,1,0). -/
theorem ratDist_unit_y : ratDist ⟨0, 0, 0⟩ ⟨0, 1, 0⟩ = 1 := by
  norm_num [ratDist, Point3d.distanceSquared, ratSqrt_one]

/-- Concrete distance from the origin to (2,0,0). -/
theorem ratDist_two_x : ratDist ⟨0, 0, 0⟩ ⟨2, 0, 0⟩ = 2 := by
  norm_num [ratDist, Point3d.distanceSquared, ratSqrt_four]

/-- Concrete magnitude of the unit x vector. -/
theorem ratMag_unit_x : ratMag ⟨1, 0, 0⟩ = 1 := by
  norm_num [ratMag, ratSqrt_one]

/-- Total emitted length of the length-two segment curve. -/
theorem curveLength_seg2 : CurvePrimitive.curveLength ratParams seg2Curve = 2 := by
  norm_num [CurvePrimitive.curveLength, CurvePrimitive.emitToLengthContext,
    seg2Curve, CurveLengthContext.handlePart,
    CurveLengthContext.announceSegmentInterval, CurveLengthContext.mk',
    ratParams, ratDist_two_x]

/-- Total emitted length of the unit segment curve without a scale. -/
theorem curveLength_cNoScale :
    CurvePrimitive.curveLength ratParams cNoScale = 1 := by
  norm_num [CurvePrimitive.curveLength, CurvePrimitive.emitToLengthContext,
    cNoScale, CurveLengthContext.handlePart,
    CurveLengthContext.announceSegmentInterval, CurveLengthContext.mk',
    ratParams, ratDist_unit_x]

/-- C5 fails as stated: the length-two segment has defined scale 2 and
total length 2, but curveLengthBetweenFractions over the whole fraction
range is 2, not scale times total length times the fraction span, which
is 4. -/
theorem curveLengthBetweenFractions_scale_formula_counterexample :
    seg2Curve.getFractionToDistanceScale = some 2 ∧
    CurvePrimitive.curveLength ratParams seg2Curve = 2 ∧
    CurvePrimitive.curveLengthBetweenFractions ratParams seg2Curve 0 1 = 2 ∧
    CurvePrimitive.curveLengthBetweenFractions ratParams seg2Curve 0 1 ≠
      2 * (2 * |(1 : ℚ) - 0|) := by
  have hc : CurvePrimitive.curveLengthBetweenFractions ratParams seg2Curve 0 1 = 2 := by
    have hscale : seg2Curve.getFractionToDistanceScale = some 2 := rfl
    norm_num [CurvePrimitive.curveLengthBetweenFractions, hscale,
      curveLength_seg2, qAbs]
  refine ⟨rfl, curveLength_seg2, hc, ?_⟩
  rw [hc]
  norm_num

/-- C5 amended: for every curve with a defined fraction-to-distance scale
and nonnegative total length, curveLengthBetweenFractions is the one-line
proportional computation, total length times the unsigned fraction span
(the source documents the defined scale as the curve length itself, so
this is the claimed formula without the redundant extra scale factor);
reversed fractions give the same unsigned value, and equal fractions give
exactly zero since the formula vanishes there. -/
theorem curveLengthBetweenFractions_proportional_fast_path (P : ModelParams)
    (c : CurvePrimitive) (s f0 f1 : ℚ)
    (hs : c.getFractionToDistanceScale = some s)
    (hL : 0 ≤ CurvePrimitive.curveLength P c) :
    CurvePrimitive.curveLengthBetweenFractions P c f0 f1 =
      |f1 - f0| * CurvePrimitive.curveLength P c := by
  unfold CurvePrimitive.curveLengthBetweenFractions
  by_cases h : f0 = f1
  · simp [h]
  · simp only [if_neg h, hs]
    rw [qAbs_eq_abs, abs_mul, abs_of_nonneg hL]

/-- Witness for the amended C5 on the length-two segment over half the
fraction range. -/
theorem curveLengthBetweenFractions_proportional_fast_path_witness :
    seg2Curve.getFractionToDistanceScale = some 2 ∧
    0 ≤ CurvePrimitive.curveLength ratParams seg2Curve ∧
    CurvePrimitive.curveLengthBetweenFractions ratParams seg2Curve 0 (1 / 2) =
      |(1 / 2 : ℚ) - 0| * CurvePrimitive.curveLength ratParams seg2Curve :=
  ⟨rfl, by rw [curveLength_seg2]; norm_num,
   curveLengthBetweenFractions_proportional_fast_path ratParams seg2Curve 2 0
     (1 / 2) rfl (by rw [curveLength_seg2]; norm_num)⟩

/-- Closest-point handler state holding a stored best candidate at
distance one from the space point at the origin, used to exercise the
tie-breaking of announceCandidate. -/
def tieHandlerState : ClosestPointStrokeHandler :=
  { closestPoint := some ⟨0, ⟨1, 0, 0⟩, 1, none⟩, spacePoint := ⟨0, 0, 0⟩,
    extend := false, fractionA := 0, functionA := 0, functionB := 0,
    fractionB := 0, numThisCurve := 2, curveSet := true }

/-- C6 fails as stated: a later candidate whose distance exactly ties the
stored best replaces it, so the last-found candidate is kept, not the
first-found.  The stored best sits at (1,0,0) with distance one from the
space point at the origin; the new candidate (0,1,0) is also at distance
exactly one, and after the announcement the stored candidate is the new
one. -/
theorem announceCandidate_tie_keeps_last_counterexample :
    ratParams.dist ⟨0, 0, 0⟩ ⟨0, 1, 0⟩ = 1 ∧
    tieHandlerState.closestPoint = some ⟨0, ⟨1, 0, 0⟩, 1, none⟩ ∧
    (ClosestPointStrokeHandler.announceCandidate ratParams tieHandlerState 1
        ⟨0, 1, 0⟩).closestPoint = some ⟨1, ⟨0, 1, 0⟩, 1, none⟩ ∧
    (⟨1, ⟨0, 1, 0⟩, 1, none⟩ : CurveLocationDetail) ≠ ⟨0, ⟨1, 0, 0⟩, 1, none⟩ := by
  refine ⟨by simp [ratParams, ratDist_unit_y], rfl, ?_, ?_⟩
  · simp [ClosestPointStrokeHandler.announceCandidate, tieHandlerState,
      ratParams, ratDist_unit_y, CurveLocationDetail.createCurveFractionPoint]
  · simp [CurveLocationDetail.mk.injEq]

/-- C6 amended: the running best candidate is kept exactly when the new
candidate has strictly greater distance to the space point, and is
replaced whenever the new distance is less than or equal to the stored
distance, so an exact tie keeps the last-found candidate. -/
theorem announceCandidate_replacement_policy (P : ModelParams)
    (h : ClosestPointStrokeHandler) (fraction : ℚ) (point : Point3d)
    (best : CurveLocationDetail) (hbest : h.closestPoint = some best) :
    (best.a < P.dist h.spacePoint point →
      ClosestPointStrokeHandler.announceCandidate P h fraction point = h) ∧
    (P.dist h.spacePoint point ≤ best.a →
      (ClosestPointStrokeHandler.announceCandidate P h fraction
          point).closestPoint =
        some { fraction := fraction, point := point,
               a := P.dist h.spacePoint point, curveSearchStatus := none }) := by
  obtain ⟨cp, sp, ext, fA, funA, funB, fB, ntc, cs⟩ := h
  simp only at hbest
  cases hbest
  constructor
  · intro hgt
    simp only [ClosestPointStrokeHandler.announceCandidate, gt_iff_lt]
    rw [if_pos hgt]
  · intro hle
    simp only [ClosestPointStrokeHandler.announceCandidate, gt_iff_lt,
      CurveLocationDetail.createCurveFractionPoint]
    rw [if_neg (not_lt.mpr hle)]

/-- Witness for the amended C6 at the exact tie: the candidate at equal
distance replaces the stored best. -/
theorem announceCandidate_replacement_policy_witness :
    tieHandlerState.closestPoint = some ⟨0, ⟨1, 0, 0⟩, 1, none⟩ ∧
    ratParams.dist tieHandlerState.spacePoint ⟨0, 1, 0⟩ ≤ 1 ∧
    (ClosestPointStrokeHandler.announceCandidate ratParams tieHandlerState 1
        ⟨0, 1, 0⟩).closestPoint =
      some ⟨1, ⟨0, 1, 0⟩, ratParams.dist tieHandlerState.spacePoint ⟨0, 1, 0⟩,
        none⟩ :=
  ⟨rfl, by simp [tieHandlerState, ratParams, ratDist_unit_y],
   (announceCandidate_replacement_policy ratParams tieHandlerState 1 ⟨0, 1, 0⟩
       ⟨0, ⟨1, 0, 0⟩, 1, none⟩ rfl).2
     (by simp [tieHandlerState, ratParams, ratDist_unit_y])⟩

/-- C1: on the degenerate emission of exactly the two endpoint
point-tangent samples, with the space point beyond the far endpoint, the
bracketing function has no sign change, no candidate is ever announced,
and closestPoint returns no result at all, for every distance function
and every root finder; the source documentation of closestPoint states
the method should always succeed. -/
theorem closestPoint_degenerate_emission_returns_none (P : ModelParams)
    (extend : Bool) :
    CurvePrimitive.closestPoint P degenerateTwoPointCurve ⟨2, 0, 0⟩ extend =
      none := by
  simp [CurvePrimitive.closestPoint, degenerateTwoPointCurve,
    ClosestPointStrokeHandler.create, ClosestPointStrokeHandler.startCurvePrimitive,
    ClosestPointStrokeHandler.handlePart, ClosestPointStrokeHandler.announcePointTangent,
    ClosestPointStrokeHandler.announceRay, ClosestPointStrokeHandler.evaluateB,
    ClosestPointStrokeHandler.searchInterval, ClosestPointStrokeHandler.claimResult,
    Ray3d.dotProductToPoint]

/-- The two clamp orders agree: clamping below at zero then above at one
equals the clamp of the embedded helper. -/
theorem min_max_clamp (x : ℚ) :
    min (max x 0) 1 = Geometry.clampToStartEnd x 0 1 := by
  unfold Geometry.clampToStartEnd
  simp only [min_def, max_def]
  split_ifs <;> linarith

/-- C8: in the closest-point search over an announced exact segment, the
projection fraction is clamped into the unit interval whenever extension
is off; with extension on it is clamped from below unless the segment
begins at curve fraction zero and from above unless it ends at curve
fraction one, so an interior segment is never extended; and
announceSegmentInterval announces exactly the candidate at the clamped
projection fraction. -/
theorem closestPoint_segment_projection_clamping (extend : Bool)
    (raw f0 f1 : ℚ) :
    (extend = false →
      ClosestPointStrokeHandler.segmentLocalFraction extend raw f0 f1 =
        Geometry.clampToStartEnd raw 0 1 ∧
      0 ≤ ClosestPointStrokeHandler.segmentLocalFraction extend raw f0 f1 ∧
      ClosestPointStrokeHandler.segmentLocalFraction extend raw f0 f1 ≤ 1) ∧
    (extend = true →
      (f0 ≠ 0 →
        0 ≤ ClosestPointStrokeHandler.segmentLocalFraction extend raw f0 f1) ∧
      (f1 ≠ 1 →
        ClosestPointStrokeHandler.segmentLocalFraction extend raw f0 f1 ≤ 1) ∧
      (f0 = 0 → f1 = 1 →
        ClosestPointStrokeHandler.segmentLocalFraction extend raw f0 f1 = raw) ∧
      (f0 = 0 → f1 ≠ 1 →
        ClosestPointStrokeHandler.segmentLocalFraction extend raw f0 f1 =
          min raw 1) ∧
      (f0 ≠ 0 → f1 = 1 →
        ClosestPointStrokeHandler.segmentLocalFraction extend raw f0 f1 =
          max raw 0) ∧
      (f0 ≠ 0 → f1 ≠ 1 →
        ClosestPointStrokeHandler.segmentLocalFraction extend raw f0 f1 =
          Geometry.clampToStartEnd raw 0 1)) ∧
    (∀ (P : ModelParams) (h : ClosestPointStrokeHandler) (p0 p1 : Point3d),
      ClosestPointStrokeHandler.announceSegmentInterval P h p0 p1 f0 f1 =
        ClosestPointStrokeHandler.announceCandidate P h
          (Geometry.interpolate f0
            (ClosestPointStrokeHandler.segmentLocalFraction h.extend
              (h.spacePoint.fractionOfProjectionToLine p0 p1 0) f0 f1) f1)
          (p0.interpolate
            (ClosestPointStrokeHandler.segmentLocalFraction h.extend
              (h.spacePoint.fractionOfProjectionToLine p0 p1 0) f0 f1) p1)) := by
  refine ⟨?_, ?_, fun P h p0 p1 => rfl⟩
  · intro hext
    subst hext
    unfold ClosestPointStrokeHandler.segmentLocalFraction
    rw [if_pos rfl]
    refine ⟨rfl, le_max_left 0 _, ?_⟩
    exact max_le zero_le_one (min_le_left 1 raw)
  · intro hext
    subst hext
    have hval : ClosestPointStrokeHandler.segmentLocalFraction true raw f0 f1 =
        if f1 ≠ 1 then min (if f0 ≠ 0 then max raw 0 else raw) 1
        else (if f0 ≠ 0 then max raw 0 else raw) := rfl
    refine ⟨?_, ?_, ?_, ?_, ?_, ?_⟩
    · intro hf0
      rw [hval]
      by_cases hf1 : f1 = 1
      · simp only [hf1, ne_eq, not_true_eq_false, if_false, if_pos hf0]
        exact le_max_right raw 0
      · simp only [ne_eq, hf1, not_false_eq_true, if_true, if_pos hf0]
        exact le_min (le_max_right raw 0) zero_le_one
    · intro hf1
      rw [hval, if_pos hf1]
      exact min_le_right _ 1
    · intro hf0 hf1
      rw [hval]
      simp [hf0, hf1]
    · intro hf0 hf1
      rw [hval]
      simp only [ne_eq, hf1, not_false_eq_true, if_true, hf0,
        not_true_eq_false, if_false]
    · intro hf0 hf1
      rw [hval]
      simp only [ne_eq, hf1, not_true_eq_false, if_false, if_pos hf0]
    · intro hf0 hf1
      rw [hval, if_pos hf1, if_pos hf0]
      exact min_max_clamp raw

/-- Witness for C8 on a segment interior to the curve with the projection
far beyond it: the local fraction stays inside the unit interval even
with extension requested. -/
theorem closestPoint_segment_projection_clamping_witness :
    0 ≤ ClosestPointStrokeHandler.segmentLocalFraction true 5 (1 / 2) (1 / 2) ∧
    ClosestPointStrokeHandler.segmentLocalFraction true 5 (1 / 2) (1 / 2) ≤ 1 :=
  ⟨((closestPoint_segment_projection_clamping true 5 (1 / 2) (1 / 2)).2.1
      rfl).1 (by norm_num),
   ((closestPoint_segment_projection_clamping true 5 (1 / 2) (1 / 2)).2.1
      rfl).2.1 (by norm_num)⟩

/-- Transitivity of the append-only growth relation on accumulators. -/
theorem appendGrows_trans {α : Type} {a b c2 : List α}
    (h1 : ∃ t, b = a ++ t) (h2 : ∃ t, c2 = b ++ t) : ∃ t, c2 = a ++ t := by
  obtain ⟨t1, e1⟩ := h1
  obtain ⟨t2, e2⟩ := h2
  exact ⟨t1 ++ t2, by rw [e2, e1, List.append_assoc]⟩

namespace AppendPlaneIntersectionStrokeHandler

/-- The altitude evaluation does not touch the accumulator. -/
theorem evaluateB_intersections (h : AppendPlaneIntersectionStrokeHandler)
    (xyz : Point3d) (fraction : ℚ) (tangent : Vector3d) :
    (evaluateB h xyz fraction tangent).intersections = h.intersections := rfl

/-- Announcing a solution fraction only appends to the accumulator. -/
theorem announceSolutionFraction_grows (c : CurvePrimitive)
    (h : AppendPlaneIntersectionStrokeHandler) (fraction : ℚ) :
    ∃ t, (announceSolutionFraction c h fraction).intersections =
      h.intersections ++ t := by
  unfold announceSolutionFraction
  split_ifs
  · exact ⟨_, rfl⟩
  · exact ⟨[], by simp⟩

/-- The bracketed-interval search only appends to the accumulator. -/
theorem searchInterval_grows (P : ModelParams) (c : CurvePrimitive)
    (h : AppendPlaneIntersectionStrokeHandler) :
    ∃ t, (searchInterval P c h).intersections = h.intersections ++ t := by
  unfold searchInterval
  by_cases hA : h.functionA * h.functionB > 0
  · simp only [if_pos hA]
    exact ⟨[], by simp⟩
  · simp only [if_neg hA]
    generalize hh1 : (if h.functionA = 0 then
      announceSolutionFraction c h h.fractionA else h) = h1
    have g1 : ∃ t, h1.intersections = h.intersections ++ t := by
      rw [← hh1]
      split_ifs
      · exact announceSolutionFraction_grows c h h.fractionA
      · exact ⟨[], by simp⟩
    generalize hh2 : (if h1.functionB = 0 then
      announceSolutionFraction c h1 h1.fractionB else h1) = h2
    have g2 : ∃ t, h2.intersections = h.intersections ++ t := by
      refine appendGrows_trans g1 ?_
      rw [← hh2]
      split_ifs
      · exact announceSolutionFraction_grows c h1 h1.fractionB
      · exact ⟨[], by simp⟩
    by_cases hneg : h2.functionA * h2.functionB < 0
    · simp only [if_pos hneg]
      cases Geometry.inverseInterpolate h2.fractionA h2.functionA h2.fractionB
          h2.functionB with
      | none => exact g2
      | some fr =>
          by_cases hfr : fr = 0
          · simp only [if_pos hfr]
            exact g2
          · simp only [if_neg hfr]
            cases P.solver fr with
            | none => exact g2
            | some root =>
                exact appendGrows_trans g2
                  (announceSolutionFraction_grows c h2 root)
    · simp only [if_neg hneg]
      exact g2

/-- A point-tangent announcement only appends to the accumulator. -/
theorem announcePointTangent_grows (P : ModelParams) (c : CurvePrimitive)
    (h : AppendPlaneIntersectionStrokeHandler) (xyz : Point3d) (fraction : ℚ)
    (tangent : Vector3d) :
    ∃ t, (announcePointTangent P c h xyz fraction tangent).intersections =
      h.intersections ++ t := by
  unfold announcePointTangent
  by_cases hn : (evaluateB h xyz fraction tangent).numThisCurve > 0
  · simp only [if_pos hn]
    obtain ⟨t, ht⟩ := searchInterval_grows P c (evaluateB h xyz fraction tangent)
    exact ⟨t, by rw [ht, evaluateB_intersections]⟩
  · simp only [if_neg hn]
    exact ⟨[], by rw [evaluateB_intersections, List.append_nil]⟩

/-- A fold of accumulator-growing steps only appends to the
accumulator. -/
theorem foldl_grows {β : Type}
    (f : AppendPlaneIntersectionStrokeHandler → β →
      AppendPlaneIntersectionStrokeHandler)
    (hf : ∀ (hb : AppendPlaneIntersectionStrokeHandler) (b : β),
      ∃ t, (f hb b).intersections = hb.intersections ++ t) :
    ∀ (l : List β) (h : AppendPlaneIntersectionStrokeHandler),
      ∃ t, (l.foldl f h).intersections = h.intersections ++ t := by
  intro l
  induction l with
  | nil => intro h; exact ⟨[], by simp⟩
  | cons b rest ih =>
      intro h
      exact appendGrows_trans (hf h b) (ih (f h b))

/-- A uniform-step sampling announcement only appends to the
accumulator. -/
theorem announceIntervalForUniformStepStrokes_grows (P : ModelParams)
    (c : CurvePrimitive) (h : AppendPlaneIntersectionStrokeHandler)
    (numStrokes : ℕ) (fraction0 fraction1 : ℚ) :
    ∃ t, (announceIntervalForUniformStepStrokes P c h numStrokes fraction0
        fraction1).intersections = h.intersections ++ t := by
  unfold announceIntervalForUniformStepStrokes
  exact foldl_grows _ (fun hb i => announcePointTangent_grows P c hb _ _ _) _ _

/-- An exact-chord announcement only appends to the accumulator. -/
theorem announceSegmentInterval_grows (P : ModelParams) (c : CurvePrimitive)
    (h : AppendPlaneIntersectionStrokeHandler) (point0 point1 : Point3d)
    (fraction0 fraction1 : ℚ) :
    ∃ t, (announceSegmentInterval P c h point0 point1 fraction0
        fraction1).intersections = h.intersections ++ t := by
  unfold announceSegmentInterval
  by_cases hpos : h.plane.altitude point0 * h.plane.altitude point1 > 0
  · simp only [if_pos hpos]
    exact ⟨[], by simp⟩
  · simp only [if_neg hpos]
    cases hsc : Order2Bezier.solveCoffs (h.plane.altitude point0)
        (h.plane.altitude point1) with
    | none => simp only [hsc]; exact ⟨[], by simp⟩
    | some fraction01 =>
        simp only [hsc]
        cases hsv : P.solver (Geometry.interpolate fraction0 fraction01
            fraction1) with
        | none => simp only [hsv]; exact ⟨[], by simp⟩
        | some root =>
            simp only [hsv]
            exact announceSolutionFraction_grows c h root

/-- Every stroke announcement only appends to the accumulator. -/
theorem handlePart_grows (P : ModelParams) (c : CurvePrimitive)
    (h : AppendPlaneIntersectionStrokeHandler) (part : StrokePart) :
    ∃ t, (handlePart P c h part).intersections = h.intersections ++ t := by
  cases part with
  | intervalStrokes n f0 f1 =>
      exact announceIntervalForUniformStepStrokes_grows P c h n f0 f1
  | segmentInterval p0 p1 n f0 f1 =>
      exact announceSegmentInterval_grows P c h p0 p1 f0 f1
  | pointTangent p f t => exact announcePointTangent_grows P c h p f t

end AppendPlaneIntersectionStrokeHandler

/-- C9: appendPlaneIntersectionPoints returns exactly the number of
records appended during the call, and the caller-owned accumulator only
grows: every entry present before the call remains in place unchanged,
the new records following them. -/
theorem appendPlaneIntersectionPoints_appends_and_counts (P : ModelParams)
    (c : CurvePrimitive) (plane : PlaneAltitudeEvaluator)
    (result : List CurveLocationDetail) :
    ∃ t, (CurvePrimitive.appendPlaneIntersectionPoints P c plane result).1 =
        result ++ t ∧
      (CurvePrimitive.appendPlaneIntersectionPoints P c plane result).2 =
        t.length := by
  unfold CurvePrimitive.appendPlaneIntersectionPoints
  obtain ⟨t, ht⟩ := AppendPlaneIntersectionStrokeHandler.foldl_grows
    (AppendPlaneIntersectionStrokeHandler.handlePart P c)
    (AppendPlaneIntersectionStrokeHandler.handlePart_grows P c)
    c.strokableParts
    ((AppendPlaneIntersectionStrokeHandler.create plane
      result).startCurvePrimitive true)
  have hinit : ((AppendPlaneIntersectionStrokeHandler.create plane
      result).startCurvePrimitive true).intersections = result := rfl
  rw [hinit] at ht
  refine ⟨t, ht, ?_⟩
  show (List.foldl (AppendPlaneIntersectionStrokeHandler.handlePart P c)
      ((AppendPlaneIntersectionStrokeHandler.create plane
        result).startCurvePrimitive true)
      c.strokableParts).intersections.length - result.length = t.length
  rw [ht, List.length_append]
  omega

namespace CurvePrimitive

/-- A broken carry passes through an iteration unchanged. -/
theorem moveSignedDistanceLoopStep_broken (P : ModelParams)
    (c : CurvePrimitive) (absDistance directionFactor tol : ℚ)
    (carry : MoveSignedDistanceLoopCarry) (hbr : carry.broken = true) :
    moveSignedDistanceLoopStep P c absDistance directionFactor tol carry =
      carry := by
  unfold moveSignedDistanceLoopStep
  rw [if_pos hbr]

/-- A broken carry passes through the whole remaining loop unchanged. -/
theorem moveSignedDistanceLoop_foldl_broken (P : ModelParams)
    (c : CurvePrimitive) (absDistance directionFactor tol : ℚ) :
    ∀ (l : List ℕ) (carry : MoveSignedDistanceLoopCarry),
      carry.broken = true →
      l.foldl (fun cr _ => moveSignedDistanceLoopStep P c absDistance
        directionFactor tol cr) carry = carry := by
  intro l
  induction l with
  | nil => intro carry _; rfl
  | cons b rest ih =>
      intro carry hbr
      rw [List.foldl_cons,
        moveSignedDistanceLoopStep_broken P c absDistance directionFactor tol
          carry hbr]
      exact ih carry hbr

/-- An unbroken carry always advances the iteration count by one, and if
the iteration breaks, the loop state records more than one consecutive
converged iteration (either the two-in-tolerance exit or the
repeated-fraction exit, which stores one hundred). -/
theorem moveSignedDistanceLoopStep_not_broken (P : ModelParams)
    (c : CurvePrimitive) (absDistance directionFactor tol : ℚ)
    (carry : MoveSignedDistanceLoopCarry) (hbr : carry.broken = false) :
    (moveSignedDistanceLoopStep P c absDistance directionFactor tol
        carry).iterations = carry.iterations + 1 ∧
    ((moveSignedDistanceLoopStep P c absDistance directionFactor tol
        carry).broken = true →
      (moveSignedDistanceLoopStep P c absDistance directionFactor tol
        carry).state.numConverged > 1) := by
  simp only [moveSignedDistanceLoopStep]
  rw [if_neg (by rw [hbr]; exact Bool.false_ne_true)]
  by_cases hout : qAbs (moveSignedDistanceStepError P c absDistance
      directionFactor carry.state) < tol ∧
      moveSignedDistanceStepNumConverged P c absDistance directionFactor tol
        carry.state > 1
  · rw [if_pos hout]
    exact ⟨rfl, fun _ => hout.2⟩
  · rw [if_neg hout]
    by_cases heq : carry.state.fractionB =
        moveSignedDistanceStepNextFraction P c absDistance directionFactor
          carry.state
    · rw [if_pos heq]
      exact ⟨rfl, fun _ => by norm_num⟩
    · rw [if_neg heq]
      exact ⟨rfl, fun hb => absurd hb (by simp)⟩

/-- An unbroken loop whose final state shows at most one consecutive
converged iteration ran every iteration of the list: it never broke, and
the iteration count advanced by the list length. -/
theorem moveSignedDistanceLoop_foldl_run_all (P : ModelParams)
    (c : CurvePrimitive) (absDistance directionFactor tol : ℚ) :
    ∀ (l : List ℕ) (carry : MoveSignedDistanceLoopCarry),
      carry.broken = false →
      (l.foldl (fun cr _ => moveSignedDistanceLoopStep P c absDistance
        directionFactor tol cr) carry).state.numConverged ≤ 1 →
      (l.foldl (fun cr _ => moveSignedDistanceLoopStep P c absDistance
        directionFactor tol cr) carry).iterations =
        carry.iterations + l.length ∧
      (l.foldl (fun cr _ => moveSignedDistanceLoopStep P c absDistance
        directionFactor tol cr) carry).broken = false := by
  intro l
  induction l with
  | nil => intro carry hbr _; exact ⟨by simp, hbr⟩
  | cons b rest ih =>
      intro carry hbr hfin
      rw [List.foldl_cons] at hfin ⊢
      rcases Bool.eq_false_or_eq_true
          (moveSignedDistanceLoopStep P c absDistance directionFactor tol
            carry).broken with hb | hb
      · rw [moveSignedDistanceLoop_foldl_broken P c absDistance directionFactor
          tol rest _ hb] at hfin
        have := (moveSignedDistanceLoopStep_not_broken P c absDistance
          directionFactor tol carry hbr).2 hb
        omega
      · obtain ⟨hiter, hbrok⟩ := ih
          (moveSignedDistanceLoopStep P c absDistance directionFactor tol carry)
          hb hfin
        refine ⟨?_, hbrok⟩
        rw [hiter,
          (moveSignedDistanceLoopStep_not_broken P c absDistance
            directionFactor tol carry hbr).1]
        simp only [List.length_cons]
        omega

/-- If the ten-iteration loop ends with at most one consecutive converged
iteration, it completed all ten iterations without breaking. -/
theorem moveSignedDistanceLoopResult_runs_ten (P : ModelParams)
    (c : CurvePrimitive) (startFraction signedDistance : ℚ)
    (hFail : (moveSignedDistanceLoopResult P c startFraction
        signedDistance).state.numConverged ≤ 1) :
    (moveSignedDistanceLoopResult P c startFraction
        signedDistance).iterations = 10 ∧
    (moveSignedDistanceLoopResult P c startFraction
        signedDistance).broken = false := by
  unfold moveSignedDistanceLoopResult at hFail ⊢
  have h := moveSignedDistanceLoop_foldl_run_all P c (qAbs signedDistance)
    (if signedDistance < 0 then -1 else 1)
    ((1 / 1000000000000 : ℚ) *
      moveSignedDistanceAvailableLength P c startFraction signedDistance)
    (List.range 10) _ rfl hFail
  simpa [List.length_range] using h

end CurvePrimitive

/-- C2: when the generic signed-distance iteration completes its ten
iterations without either two consecutive distance errors under the
tolerance or two identical consecutive fraction estimates (so the final
loop state shows at most one consecutive converged iteration), the
returned detail has status error, fraction equal to the original start
fraction, point equal to the curve evaluated at the start fraction, and
zero distance moved. -/
theorem moveSignedDistanceGeneric_error_after_ten (P : ModelParams)
    (c : CurvePrimitive) (startFraction signedDistance : ℚ)
    (allowExtension : Bool)
    (hEnter : ¬(CurvePrimitive.moveSignedDistanceAvailableLength P c
        startFraction signedDistance < qAbs signedDistance ∧
      allowExtension = false))
    (hFail : (CurvePrimitive.moveSignedDistanceLoopResult P c startFraction
        signedDistance).state.numConverged ≤ 1) :
    CurvePrimitive.moveSignedDistanceFromFractionGeneric P c startFraction
        signedDistance allowExtension =
      ({ fraction := startFraction, point := c.fractionToPoint startFraction,
         a := 0, curveSearchStatus := some CurveSearchStatus.error }, 10) := by
  simp only [CurvePrimitive.moveSignedDistanceFromFractionGeneric]
  rw [if_neg hEnter]
  rw [if_neg (by omega :
    ¬(CurvePrimitive.moveSignedDistanceLoopResult P c startFraction
      signedDistance).state.numConverged > 1)]
  rw [(CurvePrimitive.moveSignedDistanceLoopResult_runs_ten P c startFraction
    signedDistance hFail).1]

/-- The first ten natural numbers, spelled out for concrete loop
evaluation. -/
theorem range_ten : List.range 10 = [0, 1, 2, 3, 4, 5, 6, 7, 8, 9] := rfl

/-- Witness for C2 on the no-scale unit segment asked to move distance
two with extension allowed: the announced emission saturates at the curve
end, the Newton iterates run away, all ten iterations execute with no
convergence, and the error detail at the start fraction is returned. -/
theorem moveSignedDistanceGeneric_error_after_ten_witness :
    ¬(CurvePrimitive.moveSignedDistanceAvailableLength ratParams cNoScale 0 2 <
        qAbs 2 ∧ true = false) ∧
    (CurvePrimitive.moveSignedDistanceLoopResult ratParams cNoScale
        0 2).state.numConverged ≤ 1 ∧
    CurvePrimitive.moveSignedDistanceFromFractionGeneric ratParams cNoScale 0 2
        true =
      ({ fraction := 0, point := cNoScale.fractionToPoint 0, a := 0,
         curveSearchStatus := some CurveSearchStatus.error }, 10) := by
  have hEnter : ¬(CurvePrimitive.moveSignedDistanceAvailableLength ratParams
      cNoScale 0 2 < qAbs 2 ∧ true = false) := by simp
  have hFail : (CurvePrimitive.moveSignedDistanceLoopResult ratParams cNoScale
      0 2).state.numConverged ≤ 1 := by
    norm_num [CurvePrimitive.moveSignedDistanceLoopResult, range_ten,
      CurvePrimitive.moveSignedDistanceLoopStep,
      CurvePrimitive.moveSignedDistanceStepError,
      CurvePrimitive.moveSignedDistanceStepNumConverged,
      CurvePrimitive.moveSignedDistanceStepNextFraction,
      CurvePrimitive.moveSignedDistanceAvailableLength,
      CurvePrimitive.moveSignedDistanceLimitFraction,
      CurvePrimitive.curveLengthBetweenFractions,
      CurvePrimitive.emitToLengthContext, CurveLengthContext.handlePart,
      CurveLengthContext.announceSegmentInterval, CurveLengthContext.mk',
      cNoScale, ratParams, ratDist_unit_x, ratMag_unit_x,
      Geometry.interpolate, qAbs]
  exact ⟨hEnter, hFail,
    moveSignedDistanceGeneric_error_after_ten ratParams cNoScale 0 2 true
      hEnter hFail⟩

/-- C4: on a curve without a proportional scale, when the unsigned curve
length from the start fraction to the travel-direction endpoint is
smaller than the requested unsigned distance and extension is
disallowed, the result has status stoppedAtBoundary at that endpoint
with the achieved smaller-magnitude signed distance, and it is returned
before any Newton iteration runs (the iteration count of the generic
search is zero); moveSignedDistanceFromFraction routes such a curve to
the generic search. -/
theorem moveSignedDistance_boundary_stop (P : ModelParams)
    (c : CurvePrimitive) (startFraction signedDistance : ℚ)
    (hscale : c.getFractionToDistanceScale = none)
    (hshort : CurvePrimitive.moveSignedDistanceAvailableLength P c
        startFraction signedDistance < qAbs signedDistance) :
    CurvePrimitive.moveSignedDistanceFromFractionGeneric P c startFraction
        signedDistance false =
      ({ fraction := CurvePrimitive.moveSignedDistanceLimitFraction
            signedDistance,
         point := c.fractionToPoint
           (CurvePrimitive.moveSignedDistanceLimitFraction signedDistance),
         a := (if signedDistance < 0 then -1 else 1) *
           CurvePrimitive.moveSignedDistanceAvailableLength P c startFraction
             signedDistance,
         curveSearchStatus := some CurveSearchStatus.stoppedAtBoundary }, 0) ∧
    CurvePrimitive.moveSignedDistanceFromFraction P c startFraction
        signedDistance false =
      (CurvePrimitive.moveSignedDistanceFromFractionGeneric P c startFraction
        signedDistance false).1 := by
  have hclamp : Geometry.clampToStartEnd
      (CurvePrimitive.moveSignedDistanceLimitFraction signedDistance) 0 1 =
      CurvePrimitive.moveSignedDistanceLimitFraction signedDistance := by
    unfold CurvePrimitive.moveSignedDistanceLimitFraction
      Geometry.clampToStartEnd
    split_ifs <;> norm_num
  have hshort2 : CurvePrimitive.curveLengthBetweenFractions P c startFraction
      (CurvePrimitive.moveSignedDistanceLimitFraction signedDistance) <
      qAbs signedDistance := hshort
  constructor
  · simp only [CurvePrimitive.moveSignedDistanceFromFractionGeneric]
    rw [if_pos ⟨hshort, trivial⟩]
    simp only [CurveLocationDetail.createConditionalMoveSignedDistance, hclamp]
    rw [if_pos ⟨trivial, Or.inr (Or.inr hshort2)⟩]
    rfl
  · simp only [CurvePrimitive.moveSignedDistanceFromFraction, hscale]

/-- Partial length of the no-scale unit segment over its whole fraction
range. -/
theorem clbf_cNoScale_whole :
    CurvePrimitive.curveLengthBetweenFractions ratParams cNoScale 0 1 = 1 := by
  norm_num [CurvePrimitive.curveLengthBetweenFractions, cNoScale,
    CurvePrimitive.emitToLengthContext, CurveLengthContext.handlePart,
    CurveLengthContext.announceSegmentInterval, CurveLengthContext.mk',
    ratParams, ratDist_unit_x, qAbs]

/-- Available length of the no-scale unit segment for a forward move of
distance two. -/
theorem availableLength_cNoScale_two :
    CurvePrimitive.moveSignedDistanceAvailableLength ratParams cNoScale 0 2 =
      1 := by
  norm_num [CurvePrimitive.moveSignedDistanceAvailableLength,
    CurvePrimitive.moveSignedDistanceLimitFraction, clbf_cNoScale_whole]

/-- Witness for C4: the unit segment asked to move distance two forward
with extension disallowed stops at the end of the curve having achieved
distance one, before any iteration. -/
theorem moveSignedDistance_boundary_stop_witness :
    cNoScale.getFractionToDistanceScale = none ∧
    CurvePrimitive.moveSignedDistanceAvailableLength ratParams cNoScale 0 2 <
      qAbs 2 ∧
    CurvePrimitive.moveSignedDistanceFromFractionGeneric ratParams cNoScale 0 2
        false =
      ({ fraction := 1, point := ⟨1, 0, 0⟩, a := 1,
         curveSearchStatus := some CurveSearchStatus.stoppedAtBoundary }, 0) := by
  have hshort : CurvePrimitive.moveSignedDistanceAvailableLength ratParams
      cNoScale 0 2 < qAbs 2 := by
    rw [availableLength_cNoScale_two]
    norm_num [qAbs]
  refine ⟨rfl, hshort, ?_⟩
  rw [(moveSignedDistance_boundary_stop ratParams cNoScale 0 2 rfl hshort).1]
  have hlim : CurvePrimitive.moveSignedDistanceLimitFraction (2 : ℚ) = 1 := by
    norm_num [CurvePrimitive.moveSignedDistanceLimitFraction]
  rw [hlim, availableLength_cNoScale_two]
  norm_num [cNoScale, Prod.ext_iff, CurveLocationDetail.mk.injEq,
    Point3d.mk.injEq]

/-- The scale field of the length-two segment, by construction. -/
theorem seg2Curve_scale : seg2Curve.getFractionToDistanceScale = some 2 := rfl

/-- Point of the length-two segment at fraction one. -/
theorem seg2Curve_point_one : seg2Curve.fractionToPoint 1 = ⟨2, 0, 0⟩ := by
  norm_num [seg2Curve]

/-- Point of the length-two segment at fraction two. -/
theorem seg2Curve_point_two : seg2Curve.fractionToPoint 2 = ⟨4, 0, 0⟩ := by
  norm_num [seg2Curve]

/-- Partial length of the length-two segment from fraction two back to
fraction one, through the proportional fast path. -/
theorem clbf_seg2_2_1 :
    CurvePrimitive.curveLengthBetweenFractions ratParams seg2Curve 2 1 = 2 := by
  norm_num [CurvePrimitive.curveLengthBetweenFractions, seg2Curve_scale,
    curveLength_seg2, qAbs]

/-- The conditional-move constructor at a zero requested distance and an
end fraction inside the unit interval reports success at that fraction
with zero distance moved. -/
theorem createConditionalMoveSignedDistance_zero_inrange (P : ModelParams)
    (ext : Bool) (c : CurvePrimitive) (f : ℚ) (h0 : 0 ≤ f) (h1 : f ≤ 1) :
    CurveLocationDetail.createConditionalMoveSignedDistance P ext c f f 0 =
      { fraction := f, point := c.fractionToPoint f, a := 0,
        curveSearchStatus := some CurveSearchStatus.success } := by
  simp only [CurveLocationDetail.createConditionalMoveSignedDistance]
  have hclamp : Geometry.clampToStartEnd f 0 1 = f := by
    unfold Geometry.clampToStartEnd
    rw [min_eq_right h1, max_eq_right h0]
  rw [hclamp]
  have hzero : CurvePrimitive.curveLengthBetweenFractions P c f f = 0 := by
    unfold CurvePrimitive.curveLengthBetweenFractions
    rw [if_pos rfl]
  rw [hzero]
  rw [if_neg ?hcond]
  case hcond =>
    rintro ⟨-, hor⟩
    rcases hor with h | h | h
    · exact absurd h (not_lt.mpr h0)
    · exact absurd h (not_lt.mpr h1)
    · rw [show qAbs (0 : ℚ) = 0 from by norm_num [qAbs]] at h
      exact absurd h (lt_irrefl 0)

/-- C3 fails as stated: a zero-distance move from a start fraction
outside the unit interval with extension disallowed does not return a
success detail at that fraction; on the positive-length two-unit segment
from start fraction two it stops at the boundary with the boundary
point. -/
theorem moveSignedDistanceFromFraction_zero_counterexample :
    0 < CurvePrimitive.curveLength ratParams seg2Curve ∧
    (CurvePrimitive.moveSignedDistanceFromFraction ratParams seg2Curve 2 0
        false).curveSearchStatus = some CurveSearchStatus.stoppedAtBoundary ∧
    (CurvePrimitive.moveSignedDistanceFromFraction ratParams seg2Curve 2 0
        false).point ≠ seg2Curve.fractionToPoint 2 ∧
    (CurvePrimitive.moveSignedDistanceFromFraction ratParams seg2Curve 2 0
        false).a ≠ 0 := by
  have hval : CurvePrimitive.moveSignedDistanceFromFraction ratParams
      seg2Curve 2 0 false =
      { fraction := 1, point := ⟨2, 0, 0⟩, a := 2,
        curveSearchStatus := some CurveSearchStatus.stoppedAtBoundary } := by
    norm_num [CurvePrimitive.moveSignedDistanceFromFraction, seg2Curve_scale,
      curveLength_seg2, Geometry.conditionalDivideFraction,
      CurveLocationDetail.createConditionalMoveSignedDistance,
      Geometry.clampToStartEnd, clbf_seg2_2_1, seg2Curve_point_one, qAbs,
      min_def, max_def]
  rw [hval, curveLength_seg2, seg2Curve_point_two]
  norm_num [Point3d.mk.injEq]

/-- C3 amended: for every curve with a precomputed fraction-to-distance
scale and positive total length, every start fraction inside the unit
interval, and either value of allowExtension, a zero-distance move
returns the detail at that same fraction with the curve point there,
zero distance moved and success status.  The original claim fails twice:
a start fraction outside the unit interval is clamped to the boundary
with stoppedAtBoundary when extension is disallowed (the
counterexample), and on a curve without the scale a zero-distance move
from fraction zero has a zero available length toward the limit fraction
zero, so the source seeds the generic Newton loop with the float
division 0/0 = NaN, which defeats every loop exit and ends in the error
return; the amendment therefore covers only the proportional fast path,
where the source's guarded division is exact. -/
theorem moveSignedDistanceFromFraction_zero_distance (P : ModelParams)
    (c : CurvePrimitive) (s f : ℚ) (allowExtension : Bool)
    (hs : c.getFractionToDistanceScale = some s)
    (hL : 0 < CurvePrimitive.curveLength P c) (h0 : 0 ≤ f) (h1 : f ≤ 1) :
    CurvePrimitive.moveSignedDistanceFromFraction P c f 0 allowExtension =
      { fraction := f, point := c.fractionToPoint f, a := 0,
        curveSearchStatus := some CurveSearchStatus.success } := by
  simp only [CurvePrimitive.moveSignedDistanceFromFraction, hs]
  have hdiv : Geometry.conditionalDivideFraction 0
      (CurvePrimitive.curveLength P c) = some 0 := by
    unfold Geometry.conditionalDivideFraction
    rw [if_pos ?hguard]
    · rw [zero_div]
    case hguard =>
      rw [show qAbs (0 : ℚ) = 0 from by norm_num [qAbs], qAbs_eq_abs]
      exact mul_pos (abs_pos.mpr (ne_of_gt hL)) (by norm_num)
  simp only [hdiv]
  rw [add_zero]
  exact createConditionalMoveSignedDistance_zero_inrange P allowExtension
    c f h0 h1

/-- Witness for the amended C3 at the middle of the length-two scaled
segment. -/
theorem moveSignedDistanceFromFraction_zero_distance_witness :
    seg2Curve.getFractionToDistanceScale = some 2 ∧
    0 < CurvePrimitive.curveLength ratParams seg2Curve ∧
    CurvePrimitive.moveSignedDistanceFromFraction ratParams seg2Curve (1 / 2) 0
        false =
      { fraction := 1 / 2, point := seg2Curve.fractionToPoint (1 / 2), a := 0,
        curveSearchStatus := some CurveSearchStatus.success } :=
  ⟨rfl, by rw [curveLength_seg2]; norm_num,
   moveSignedDistanceFromFraction_zero_distance ratParams seg2Curve 2 (1 / 2)
     false rfl (by rw [curveLength_seg2]; norm_num) (by norm_num)
     (by norm_num)⟩
